import Mathlib

/-! Shallow embedding of `src/client/src/producer.rs` from the pulsar-rs client
(producer multiplexing engine, per-topic producer sessions, sequence ids).

Modelling conventions:
* Rust byte vectors become `List Nat`; `HashMap<String, String>` becomes an
  association list `List (String × String)`.
* The connection is the external collaborator of spec section 6: it is modelled
  as a record of pure response functions, one per RPC the producer code calls.
  Issued RPCs are recorded as explicit `RpcCall` values so that theorems can
  count and inspect them.
* Futures are evaluated to their resolved values: a Rust
  `impl Future<Item = A, Error = E>` becomes `Except E A`, and fire-and-forget
  spawned tasks become events in an explicit event list.
* The engine (`ProducerEngine::poll`) is a function over an explicit
  `EngineState`; the resolution state of each in-flight creation oneshot is
  supplied by an oracle `status : Nat → CreationStatus` keyed by the identifier
  of the creation attempt.
-/

namespace PulsarProducer

/-- Mirrors `proto::EncryptionKeys` (opaque data carried inside `Message`). -/
structure EncryptionKeys where
  key : String
  value : List Nat
  deriving Repr, DecidableEq

/-- Mirrors the `Message` struct of `producer.rs` field for field. -/
structure Message where
  payload : List Nat
  properties : List (String × String)
  partition_key : Option String
  replicate_to : List String
  compression : Option Int
  uncompressed_size : Option Nat
  num_messages_in_batch : Option Int
  event_time : Option Nat
  encryption_keys : List EncryptionKeys
  encryption_algo : Option String
  encryption_param : Option (List Nat)
  schema_version : Option (List Nat)
  deriving Repr, DecidableEq

/-- Mirrors `Message::default()` (`payload` empty, everything else absent). -/
def Message.default : Message :=
  { payload := []
    properties := []
    partition_key := none
    replicate_to := []
    compression := none
    uncompressed_size := none
    num_messages_in_batch := none
    event_time := none
    encryption_keys := []
    encryption_algo := none
    encryption_param := none
    schema_version := none }

/-- The send receipt returned by the broker (`proto::CommandSendReceipt`). -/
structure CommandSendReceipt where
  producer_id : Nat
  sequence_id : Nat
  deriving Repr, DecidableEq

/-- Connection-level error (`error.rs` is outside the given sources; the
producer code only ever forwards these values opaquely, so a descriptive
string is all the structure the claims need). -/
structure ConnectionError where
  description : String
  deriving Repr, DecidableEq

/-- The crate-wide `Error` type returned by `Pulsar::create_producer`; the
engine only ever calls `to_string()` on it, modelled by `description`. -/
structure Error where
  description : String
  deriving Repr, DecidableEq

/-- Producer-level error (`ProducerError`): the variants exercised by
`producer.rs` are connection errors converted via `into()` and the
`Custom(String)` variant built explicitly in the engine and facade. -/
inductive ProducerError where
  | Connection (e : ConnectionError)
  | Custom (s : String)
  deriving Repr, DecidableEq

/-- Conversion `ConnectionError → ProducerError` used by `map_err(|e| e.into())`. -/
def ProducerError.ofConnection (e : ConnectionError) : ProducerError :=
  ProducerError.Connection e

/-- The broker's reply to `create_producer` (carries the assigned name). -/
structure ProducerSuccess where
  producer_name : String
  deriving Repr, DecidableEq

/-- The broker's reply to `lookup_topic`; its contents are ignored by
`producer.rs` (both uses discard the value), so it is opaque here. -/
structure LookupResult where
  broker_url : String
  deriving Repr, DecidableEq

/-- One RPC issued on the connection, recorded for observation. -/
inductive RpcCall where
  | lookupTopic (topic : String) (authoritative : Bool)
  | createProducer (topic : String) (producer_id : Nat) (name : Option String)
  | sendRpc (producer_id : Nat) (producer_name : String) (sequence_id : Nat)
      (num_messages : Option Int) (message : Message)
  | closeProducer (producer_id : Nat)
  deriving Repr, DecidableEq

/-- The connection collaborator (spec section 6), as a record of pure response
functions: what each RPC would resolve to if issued. -/
structure Connection where
  lookup_topic : String → Bool → Except ConnectionError LookupResult
  create_producer : String → Nat → Option String → Except ConnectionError ProducerSuccess
  send_rpc : Nat → String → Nat → Option Int → Message → Except ConnectionError CommandSendReceipt
  close_producer : Nat → Except ConnectionError Unit
  valid : Bool
  conn_error : Option ConnectionError

/-- Modelled from the spec: `SerialId` lives in `src/connection.rs`, which is
not among the given sources. Spec section 4.4: a thread-safe counter whose
atomic `get()` returns the current value then increments it, starting at 0 for
a new session. Modelled by explicit state passing. -/
structure SerialId where
  counter : Nat
  deriving Repr, DecidableEq

/-- Modelled from the spec: `SerialId::new()` starts the counter at 0. -/
def SerialId.new : SerialId := ⟨0⟩

/-- Modelled from the spec: `get()` returns the current value and the
incremented counter state. -/
def SerialId.get (s : SerialId) : Nat × SerialId :=
  (s.counter, ⟨s.counter + 1⟩)

/-- Iterate `get` N times from state `s`, collecting the returned values in
call order. -/
def SerialId.getN (s : SerialId) : Nat → List Nat × SerialId
  | 0 => ([], s)
  | n + 1 =>
    let (v, s1) := s.get
    let (vs, s2) := s1.getN n
    (v :: vs, s2)

/-- The `Producer` session struct of `producer.rs`, field for field
(`message_id : SerialId` is the sequence generator). -/
structure Producer where
  connection : Connection
  id : Nat
  name : String
  topic : String
  message_id : SerialId

/-- Mirrors `Producer::from_connection`: issue `lookup_topic(topic, false)`;
only if it succeeds, issue `create_producer(topic, producer_id, name)`; on
success build the session storing the broker-assigned `producer_name`, the
requested topic, and a fresh sequence generator. Returns the list of RPCs
actually issued together with the outcome. The random `producer_id` is taken
as a parameter. -/
def Producer.from_connection (connection : Connection) (topic : String)
    (producer_id : Nat) (name : Option String) :
    List RpcCall × Except ConnectionError Producer :=
  match connection.lookup_topic topic false with
  | Except.error e => ([RpcCall.lookupTopic topic false], Except.error e)
  | Except.ok _ =>
    match connection.create_producer topic producer_id name with
    | Except.error e =>
      ([RpcCall.lookupTopic topic false,
        RpcCall.createProducer topic producer_id name], Except.error e)
    | Except.ok success =>
      ([RpcCall.lookupTopic topic false,
        RpcCall.createProducer topic producer_id name],
       Except.ok
         { connection := connection
           id := producer_id
           name := success.producer_name
           topic := topic
           message_id := SerialId.new })

/-- Mirrors `Producer::is_valid`. -/
def Producer.is_valid (p : Producer) : Bool :=
  p.connection.valid

/-- Mirrors `Producer::error`. -/
def Producer.error (p : Producer) : Option ConnectionError :=
  p.connection.conn_error

/-- Mirrors `Producer::check_connection`: issues
`lookup_topic("test", false)` and maps the success value to `()`. Returns the
issued RPC, the outcome, and the (unchanged) session. -/
def Producer.check_connection (p : Producer) :
    RpcCall × Except ConnectionError Unit × Producer :=
  (RpcCall.lookupTopic "test" false,
   (p.connection.lookup_topic "test" false).map (fun _ => ()), p)

/-- Mirrors `Producer::send_message`: draw the next sequence id from
`message_id.get()`, issue the connection send RPC with the session's id and
name, and translate a connection error into a producer error. Returns the
issued RPC, the outcome, and the session with the advanced sequence state. -/
def Producer.send_message (p : Producer) (message : Message)
    (num_messages : Option Int) :
    RpcCall × Except ProducerError CommandSendReceipt × Producer :=
  let (seq, nextSerial) := p.message_id.get
  (RpcCall.sendRpc p.id p.name seq num_messages message,
   (p.connection.send_rpc p.id p.name seq num_messages message).mapError
     ProducerError.ofConnection,
   { p with message_id := nextSerial })

/-- Iterate `send_message` over a list of messages on one session, collecting
the sequence id carried by each issued send RPC. -/
def Producer.sendSeqIds (p : Producer) : List Message → List Nat
  | [] => []
  | m :: ms =>
    let (_, _, p1) := p.send_message m none
    p.message_id.counter :: p1.sendSeqIds ms

/-- Mirrors `impl Drop for Producer`: issue one `close_producer(self.id)` and
discard its outcome (`let _ = ...`). The connection's answer is a parameter so
that theorems can state that it is unobservable. Returns the issued RPCs and
the (unit) value the destructor produces. -/
def Producer.dropRun (p : Producer)
    (_rpcOutcome : Except ConnectionError Unit) : List RpcCall × Unit :=
  ([RpcCall.closeProducer p.id], ())

/-- Releasing one owner of an `Arc<Producer>` held by `owners` owners: the
destructor (and with it the close notification) runs exactly when the last
owner is released. -/
def releaseOwner (owners : Nat) (p : Producer)
    (rpcOutcome : Except ConnectionError Unit) : List RpcCall :=
  if owners = 1 then (p.dropRun rpcOutcome).1 else []

/-- A pending work item (`ProducerMessage` struct): topic, message, and the
caller's single-use result channel, identified by a numeric id. -/
structure ProducerMessage where
  topic : String
  message : Message
  resolver : Nat
  deriving Repr, DecidableEq

/-- What the facade `MultiTopicProducer::send` hands back to the caller:
either a future already failed (`future::failed`) or a future bound to the
result channel `resolver`. -/
inductive SendFuture where
  | failedNow (e : ProducerError)
  | awaitResult (resolver : Nat)
  deriving Repr, DecidableEq

/-- The error the facade synthesizes when it cannot reach the engine. -/
def engineDroppedError : ProducerError :=
  ProducerError.Custom
    "Unexpected error: pulsar producer engine unexpectedly dropped"

/-- Mirrors `MultiTopicProducer::send`: `serialized` is the outcome of
`T::serialize_message(message)`, `senderAlive` tells whether
`unbounded_send` succeeds (the engine's queue endpoint still exists), `queue`
is the inbound queue contents. Returns the updated queue and the future handed
to the caller. -/
def MultiTopicProducer.send (queue : List ProducerMessage) (senderAlive : Bool)
    (topic : String) (serialized : Except ProducerError Message)
    (resolver : Nat) : List ProducerMessage × SendFuture :=
  match serialized with
  | Except.error e => (queue, SendFuture.failedNow e)
  | Except.ok message =>
    if senderAlive then
      (queue ++ [{ topic := topic, message := message, resolver := resolver }],
       SendFuture.awaitResult resolver)
    else
      (queue, SendFuture.failedNow engineDroppedError)

/-- Mirrors the `.then(...)` adapter on the facade's result-channel future:
`none` models `Err(oneshot::Canceled)` (the engine dropped the sender without
a value), `some r` models a delivered result. -/
def resolveSendFuture (received : Option (Except ProducerError CommandSendReceipt)) :
    Except ProducerError CommandSendReceipt :=
  match received with
  | some (Except.ok data) => Except.ok data
  | some (Except.error e) => Except.error e
  | none => Except.error engineDroppedError

/-! The producer engine

`ProducerEngine::poll` works on two `BTreeMap`s keyed by topic. They are
embedded as association lists with key-based lookup and in-place insert (the
map behaviour of `BTreeMap`). An in-flight creation (the code's
`oneshot::Receiver<Result<Arc<Producer>, Error>>`, repeatedly rewrapped as
callers chain onto it) is represented by a `CreationAttempt` carrying the
identity of the underlying `create_producer` task and the list of chained
callers; the oracle `status` gives the current resolution state of each
attempt's oneshot. -/

/-- Key-based lookup in an association list (`BTreeMap::get`). -/
def mapLookup {α : Type} : List (String × α) → String → Option α
  | [], _ => none
  | e :: rest, k => if e.1 = k then some e.2 else mapLookup rest k

/-- Key-based insert-or-replace in an association list (`BTreeMap::insert`). -/
def mapInsert {α : Type} : List (String × α) → String → α → List (String × α)
  | [], k, v => [(k, v)]
  | e :: rest, k, v => if e.1 = k then (k, v) :: rest else e :: mapInsert rest k v

/-- One in-flight creation cycle for a topic: the identity of the spawned
`create_producer` task and the callers chained onto its oneshot, in arrival
order. -/
structure CreationAttempt where
  attemptId : Nat
  waiters : List (Nat × Message)
  deriving Repr, DecidableEq

/-- Resolution state of a creation attempt's oneshot, as observed when the
engine polls the receiver it holds for that attempt. -/
inductive CreationStatus where
  | notReady
  | done (r : Except Error Producer)

/-- The `ProducerEngine` state: ready sessions, in-flight creations, and a
counter supplying fresh creation-attempt identities. -/
structure EngineState where
  producers : List (String × Producer)
  newProducers : List (String × CreationAttempt)
  nextAttemptId : Nat

/-- The engine state `MultiTopicProducer::new` starts the engine task with. -/
def EngineState.initial : EngineState :=
  { producers := [], newProducers := [], nextAttemptId := 0 }

deriving instance DecidableEq for Except

/-- Observable effects of one engine poll: `create_producer` tasks spawned,
send tasks spawned against ready sessions, chained sends fired when a creation
resolves, and values delivered to caller result channels. -/
inductive Event where
  | createProducerCall (topic : String) (attemptId : Nat)
  | dispatchSend (topic : String) (resolver : Nat)
  | chainSend (topic : String) (resolver : Nat)
  | resolveCaller (resolver : Nat) (result : Except ProducerError CommandSendReceipt)
  deriving Repr, DecidableEq

/-- What the continuations chained onto a creation attempt do once the attempt
resolves (the `pending.map_err(drop).and_then(...)` tasks): on success each
chained caller's message is sent via the new session; on failure each chained
caller's result channel receives `ProducerError::Custom(e.to_string())`. -/
def runChain (outcome : Except Error Producer) (waiters : List (Nat × Message)) :
    List Event :=
  match outcome with
  | Except.ok p => waiters.map (fun w => Event.chainSend p.topic w.1)
  | Except.error e =>
    waiters.map (fun w =>
      Event.resolveCaller w.1 (Except.error (ProducerError.Custom e.description)))

/-- Whether an entry of `new_producers` is still unresolved under `status`. -/
def isNotReady (status : Nat → CreationStatus) (e : String × CreationAttempt) :
    Bool :=
  match status e.2.attemptId with
  | CreationStatus.notReady => true
  | CreationStatus.done _ => false

/-- The loop body of step 1 of `ProducerEngine::poll` over the
`new_producers` entries: a resolved-successful entry moves its producer into
`producers` under the producer's own topic and is removed; a resolved-failed
entry is removed; an unresolved entry is kept. Returns the updated producers
map, the surviving `new_producers` entries, and the chained-continuation
events now observable. -/
def advanceEntries (status : Nat → CreationStatus)
    (producers : List (String × Producer)) :
    List (String × CreationAttempt) →
    List (String × Producer) × List (String × CreationAttempt) × List Event
  | [] => (producers, [], [])
  | e :: rest =>
    match status e.2.attemptId with
    | CreationStatus.notReady =>
      let r := advanceEntries status producers rest
      (r.1, e :: r.2.1, r.2.2)
    | CreationStatus.done (Except.ok p) =>
      let r := advanceEntries status (mapInsert producers p.topic p) rest
      (r.1, r.2.1, runChain (Except.ok p) e.2.waiters ++ r.2.2)
    | CreationStatus.done (Except.error err) =>
      let r := advanceEntries status producers rest
      (r.1, r.2.1, runChain (Except.error err) e.2.waiters ++ r.2.2)

/-- Step 1 of `ProducerEngine::poll` (guarded by `!new_producers.is_empty()`). -/
def advancePending (status : Nat → CreationStatus) (s : EngineState) :
    EngineState × List Event :=
  if s.newProducers.isEmpty then (s, [])
  else
    let r := advanceEntries status s.producers s.newProducers
    ({ producers := r.1, newProducers := r.2.1
       nextAttemptId := s.nextAttemptId },
     r.2.2)

/-- One iteration of the drain loop of `ProducerEngine::poll` on one inbound
`ProducerMessage`: an existing session gets a spawned send task; otherwise the
message is chained onto the topic's in-flight creation, starting one (a
`create_producer` call with a fresh attempt identity) only when none exists. -/
def handleMessage (s : EngineState) (item : ProducerMessage) :
    EngineState × List Event :=
  match mapLookup s.producers item.topic with
  | some _ => (s, [Event.dispatchSend item.topic item.resolver])
  | none =>
    match mapLookup s.newProducers item.topic with
    | some att =>
      ({ s with
           newProducers := mapInsert s.newProducers item.topic
             { att with waiters := att.waiters ++ [(item.resolver, item.message)] } },
       [])
    | none =>
      ({ s with
           newProducers := mapInsert s.newProducers item.topic
             { attemptId := s.nextAttemptId
               waiters := [(item.resolver, item.message)] }
           nextAttemptId := s.nextAttemptId + 1 },
       [Event.createProducerCall item.topic s.nextAttemptId])

/-- The drain loop of `ProducerEngine::poll` over the inbound items available
this poll. -/
def drainQueue (s : EngineState) :
    List ProducerMessage → EngineState × List Event
  | [] => (s, [])
  | item :: rest =>
    let r1 := handleMessage s item
    let r2 := drainQueue r1.1 rest
    (r2.1, r1.2 ++ r2.2)

/-- Outcome of one `poll` of the engine future (`Async::Ready(())` ends the
engine task). The inbound `UnboundedReceiver` never yields an error, so the
engine's `Err` arm of `try_ready!` is unreachable and `poll` is total. -/
inductive PollResult where
  | ready
  | notReady
  deriving Repr, DecidableEq

/-- One full `ProducerEngine::poll`: step 1 over in-flight creations, then the
drain loop over `queue` (the items the inbound queue yields this poll);
`closed` tells whether the queue then reported closed-and-empty (`None`),
which is the only way the engine task completes. -/
def ProducerEngine.poll (status : Nat → CreationStatus) (s : EngineState)
    (queue : List ProducerMessage) (closed : Bool) :
    EngineState × List Event × PollResult :=
  let r1 := advancePending status s
  let r2 := drainQueue r1.1 queue
  (r2.1, r1.2 ++ r2.2,
   if closed then PollResult.ready else PollResult.notReady)

/-- The attempt identity of a `create_producer` call event for topic `T`. -/
def createCallOf (T : String) : Event → Option Nat
  | Event.createProducerCall t a => if t = T then some a else none
  | _ => none

/-- The attempt identities of the `create_producer` calls issued for `T`
among a list of events, in order. -/
def createCallsFor (T : String) (events : List Event) : List Nat :=
  events.filterMap (createCallOf T)

/-- The chained callers that a list of inbound items contributes for topic
`T`: resolver and message of each item for `T`, in queue order. -/
def waitersOf (T : String) : List ProducerMessage → List (Nat × Message)
  | [] => []
  | i :: rest =>
    if i.topic = T then (i.resolver, i.message) :: waitersOf T rest
    else waitersOf T rest

/-- No topic is simultaneously present in `producers` and `new_producers`. -/
def keysDisjoint (s : EngineState) : Prop :=
  ∀ t, mapLookup s.producers t ≠ none → mapLookup s.newProducers t = none

/-- Well-formedness of the engine state: `new_producers` has at most one entry
per topic (it is a map), and no topic is in both maps. -/
def EngineState.WF (s : EngineState) : Prop :=
  (s.newProducers.map Prod.fst).Nodup ∧ keysDisjoint s

/-- The resolution oracle is consistent with the code's environment: the
producer delivered by a creation attempt registered under topic `t` was built
by `create_producer(t, ...)` and hence carries topic `t` (see
`Producer.from_connection`, which stores the requested topic). -/
def TopicConsistent (status : Nat → CreationStatus) (s : EngineState) : Prop :=
  ∀ e ∈ s.newProducers, ∀ p,
    status e.2.attemptId = CreationStatus.done (Except.ok p) → p.topic = e.1

/-- Every registered attempt identity was drawn from the fresh-identity
counter, hence is below it. -/
def AttemptIdsBounded (s : EngineState) : Prop :=
  ∀ e ∈ s.newProducers, e.2.attemptId < s.nextAttemptId

/-! Concrete fixtures used to instantiate theorems with hypotheses -/

/-- A connection on which every RPC succeeds. -/
def testConnection : Connection :=
  { lookup_topic := fun _ _ => Except.ok { broker_url := "pulsar-broker" }
    create_producer := fun _ _ _ => Except.ok { producer_name := "assigned-name" }
    send_rpc := fun pid _ seq _ _ =>
      Except.ok { producer_id := pid, sequence_id := seq }
    close_producer := fun _ => Except.ok ()
    valid := true
    conn_error := none }

/-- An inbound item for topic `"topic-a"` with resolver id 0. -/
def testItem0 : ProducerMessage :=
  { topic := "topic-a", message := Message.default, resolver := 0 }

/-- A second inbound item for topic `"topic-a"` with resolver id 1. -/
def testItem1 : ProducerMessage :=
  { topic := "topic-a", message := Message.default, resolver := 1 }

/-- An oracle under which no creation attempt has resolved yet. -/
def allPendingStatus : Nat → CreationStatus :=
  fun _ => CreationStatus.notReady

/-- An oracle under which every creation attempt has failed with the same
connection-level error. -/
def allFailedStatus : Nat → CreationStatus :=
  fun _ => CreationStatus.done (Except.error { description := "creation failed" })

/-- An engine state holding one in-flight creation for `"topic-a"` (attempt
identity 0) with two chained callers (resolvers 7 and 8). -/
def failedAttemptState : EngineState :=
  { producers := []
    newProducers :=
      [("topic-a",
        { attemptId := 0
          waiters := [(7, Message.default), (8, Message.default)] })]
    nextAttemptId := 1 }

end PulsarProducer

namespace PulsarProducer

/-! Helper lemmas about the association-list maps -/

theorem mapLookup_insert_self {α : Type} (m : List (String × α)) (k : String)
    (v : α) : mapLookup (mapInsert m k v) k = some v := by
  induction m with
  | nil => simp [mapInsert, mapLookup]
  | cons e rest ih =>
    by_cases h : e.1 = k
    · simp [mapInsert, h, mapLookup]
    · simp [mapInsert, h, mapLookup, ih]

theorem mapLookup_insert_ne {α : Type} (m : List (String × α)) (k k' : String)
    (v : α) (h : k' ≠ k) :
    mapLookup (mapInsert m k v) k' = mapLookup m k' := by
  induction m with
  | nil =>
    have hne : ¬ (k = k') := fun hc => h hc.symm
    simp [mapInsert, mapLookup, hne]
  | cons e rest ih =>
    by_cases he : e.1 = k
    · subst he
      have hne : ¬ (e.1 = k') := fun hc => h hc.symm
      simp [mapInsert, mapLookup, hne]
    · simp only [mapInsert, if_neg he]
      by_cases he' : e.1 = k'
      · simp [mapLookup, he']
      · simp [mapLookup, he', ih]

theorem mapLookup_none_iff {α : Type} (m : List (String × α)) (k : String) :
    mapLookup m k = none ↔ ∀ e ∈ m, e.1 ≠ k := by
  induction m with
  | nil => simp [mapLookup]
  | cons e rest ih =>
    by_cases h : e.1 = k <;> simp [mapLookup, h, ih]

theorem mapLookup_some_mem {α : Type} {m : List (String × α)} {k : String}
    {v : α} (h : mapLookup m k = some v) : (k, v) ∈ m := by
  induction m with
  | nil => simp [mapLookup] at h
  | cons e rest ih =>
    by_cases he : e.1 = k
    · obtain ⟨e1, e2⟩ := e
      simp only [mapLookup, if_pos he] at h
      cases he
      cases h
      exact List.mem_cons_self _ _
    · simp only [mapLookup, if_neg he] at h
      exact List.mem_cons_of_mem _ (ih h)

theorem mapLookup_eq_of_mem_nodup {α : Type} {m : List (String × α)}
    {k : String} {a : α} (hnd : (m.map Prod.fst).Nodup) (hmem : (k, a) ∈ m) :
    mapLookup m k = some a := by
  induction m with
  | nil => cases hmem
  | cons e rest ih =>
    simp only [List.map_cons, List.nodup_cons] at hnd
    rcases List.mem_cons.mp hmem with h | h
    · cases h
      simp [mapLookup]
    · have hne : e.1 ≠ k := by
        intro hk
        exact hnd.1 (hk ▸ List.mem_map_of_mem Prod.fst h)
      simp [mapLookup, hne, ih hnd.2 h]

theorem mem_keys_insert {α : Type} {m : List (String × α)} {k t : String}
    {v : α} (h : t ∈ (mapInsert m k v).map Prod.fst) :
    t ∈ m.map Prod.fst ∨ t = k := by
  induction m with
  | nil => simpa [mapInsert] using h
  | cons e rest ih =>
    by_cases he : e.1 = k
    · simp only [mapInsert, if_pos he, List.map_cons, List.mem_cons] at h
      rcases h with h | h
      · exact Or.inr h
      · exact Or.inl (by simp [h])
    · simp only [mapInsert, if_neg he, List.map_cons, List.mem_cons] at h
      rcases h with h | h
      · exact Or.inl (by simp [h])
      · rcases ih h with h' | h'
        · exact Or.inl (by simp [h'])
        · exact Or.inr h'

theorem nodupKeys_insert {α : Type} {m : List (String × α)} (k : String)
    (v : α) (h : (m.map Prod.fst).Nodup) :
    ((mapInsert m k v).map Prod.fst).Nodup := by
  induction m with
  | nil => simp [mapInsert]
  | cons e rest ih =>
    simp only [List.map_cons, List.nodup_cons] at h
    by_cases he : e.1 = k
    · subst he
      simpa [mapInsert, List.nodup_cons] using h
    · simp only [mapInsert, if_neg he, List.map_cons, List.nodup_cons]
      refine ⟨fun hmem => ?_, ih h.2⟩
      rcases mem_keys_insert hmem with h' | h'
      · exact h.1 h'
      · exact he h'

theorem nodupKeys_filter {α : Type} (pred : String × α → Bool)
    {m : List (String × α)} (h : (m.map Prod.fst).Nodup) :
    (((m.filter pred).map Prod.fst)).Nodup :=
  h.sublist ((m.filter_sublist).map Prod.fst)

theorem mapLookup_filter_none {α : Type} (pred : String × α → Bool)
    {m : List (String × α)} {k : String} (h : mapLookup m k = none) :
    mapLookup (m.filter pred) k = none := by
  rw [mapLookup_none_iff] at h ⊢
  exact fun e he => h e (List.mem_of_mem_filter he)

theorem mapLookup_filter_of_mem_false {α : Type} {pred : String × α → Bool}
    {m : List (String × α)} {k : String} {a : α}
    (hnd : (m.map Prod.fst).Nodup) (hmem : (k, a) ∈ m)
    (hp : pred (k, a) = false) : mapLookup (m.filter pred) k = none := by
  induction m with
  | nil => cases hmem
  | cons e rest ih =>
    simp only [List.map_cons, List.nodup_cons] at hnd
    rcases List.mem_cons.mp hmem with h | h
    · cases h
      have hrest : mapLookup rest k = none := by
        rw [mapLookup_none_iff]
        intro e' he' hk
        have hmem' : e'.1 ∈ rest.map Prod.fst :=
          List.mem_map_of_mem Prod.fst he'
        rw [hk] at hmem'
        exact hnd.1 hmem'
      simp only [List.filter_cons, hp]
      exact mapLookup_filter_none pred hrest
    · have hne : e.1 ≠ k := by
        intro hk
        exact hnd.1 (hk ▸ List.mem_map_of_mem Prod.fst h)
      cases hpe : pred e with
      | false =>
        simp only [List.filter_cons, hpe]
        exact ih hnd.2 h
      | true =>
        simp only [List.filter_cons, hpe]
        simp [mapLookup, hne, ih hnd.2 h]

/-! Sequence generator lemmas -/

theorem serialId_getN_eq (c N : Nat) :
    SerialId.getN ⟨c⟩ N = (List.range' c N, ⟨c + N⟩) := by
  induction N generalizing c with
  | zero => simp [SerialId.getN, List.range']
  | succ n ih =>
    simp only [SerialId.getN, SerialId.get, ih (c + 1), List.range'_succ]
    refine Prod.ext rfl ?_
    simp
    omega

theorem producer_sendSeqIds_eq (msgs : List Message) : ∀ p : Producer,
    p.sendSeqIds msgs = List.range' p.message_id.counter msgs.length := by
  induction msgs with
  | nil => intro p; simp [Producer.sendSeqIds, List.range']
  | cons m ms ih =>
    intro p
    simp only [Producer.sendSeqIds, Producer.send_message, SerialId.get,
      List.length_cons, List.range'_succ, ih]

/-! Engine lemmas -/

theorem createCallsFor_append (T : String) (l1 l2 : List Event) :
    createCallsFor T (l1 ++ l2) =
      createCallsFor T l1 ++ createCallsFor T l2 := by
  simp [createCallsFor]

theorem createCallsFor_runChain (T : String) (r : Except Error Producer)
    (ws : List (Nat × Message)) : createCallsFor T (runChain r ws) = [] := by
  cases r with
  | ok p => simp [runChain, createCallsFor, createCallOf]
  | error e => simp [runChain, createCallsFor, createCallOf]

theorem advanceEntries_newProducers (status : Nat → CreationStatus)
    (l : List (String × CreationAttempt)) :
    ∀ ps, (advanceEntries status ps l).2.1 = l.filter (isNotReady status) := by
  induction l with
  | nil => intro ps; rfl
  | cons e rest ih =>
    intro ps
    cases hs : status e.2.attemptId with
    | notReady =>
      simp [advanceEntries, hs, List.filter_cons, isNotReady, ih]
    | done r =>
      cases r <;> simp [advanceEntries, hs, List.filter_cons, isNotReady, ih]

theorem advanceEntries_producers_none (status : Nat → CreationStatus)
    (t : String) (l : List (String × CreationAttempt)) :
    ∀ ps, mapLookup ps t = none →
    (∀ e ∈ l, ∀ p : Producer,
      status e.2.attemptId = CreationStatus.done (Except.ok p) →
      p.topic ≠ t) →
    mapLookup (advanceEntries status ps l).1 t = none := by
  induction l with
  | nil => intro ps hps _; exact hps
  | cons e rest ih =>
    intro ps hps hl
    cases hs : status e.2.attemptId with
    | notReady =>
      simp only [advanceEntries, hs]
      exact ih ps hps (fun e' he' => hl e' (List.mem_cons_of_mem _ he'))
    | done r =>
      cases r with
      | ok p =>
        simp only [advanceEntries, hs]
        have hne : t ≠ p.topic :=
          fun hh => hl e (List.mem_cons_self _ _) p hs hh.symm
        refine ih _ ?_ (fun e' he' => hl e' (List.mem_cons_of_mem _ he'))
        rw [mapLookup_insert_ne ps p.topic t p hne]
        exact hps
      | error err =>
        simp only [advanceEntries, hs]
        exact ih ps hps (fun e' he' => hl e' (List.mem_cons_of_mem _ he'))

theorem advanceEntries_producers_lookup (status : Nat → CreationStatus)
    (t : String) (l : List (String × CreationAttempt)) :
    ∀ ps, mapLookup (advanceEntries status ps l).1 t ≠ none →
    mapLookup ps t ≠ none ∨
      ∃ e ∈ l, ∃ p : Producer,
        status e.2.attemptId = CreationStatus.done (Except.ok p) ∧
        p.topic = t := by
  induction l with
  | nil => intro ps h; exact Or.inl h
  | cons e rest ih =>
    intro ps h
    cases hs : status e.2.attemptId with
    | notReady =>
      simp only [advanceEntries, hs] at h
      rcases ih ps h with h' | ⟨e', he', p', hp', ht'⟩
      · exact Or.inl h'
      · exact Or.inr ⟨e', List.mem_cons_of_mem _ he', p', hp', ht'⟩
    | done r =>
      cases r with
      | ok p =>
        simp only [advanceEntries, hs] at h
        rcases ih _ h with h' | ⟨e', he', p', hp', ht'⟩
        · by_cases hpt : p.topic = t
          · exact Or.inr ⟨e, List.mem_cons_self _ _, p, hs, hpt⟩
          · rw [mapLookup_insert_ne ps p.topic t p
              (fun hh => hpt hh.symm)] at h'
            exact Or.inl h'
        · exact Or.inr ⟨e', List.mem_cons_of_mem _ he', p', hp', ht'⟩
      | error err =>
        simp only [advanceEntries, hs] at h
        rcases ih ps h with h' | ⟨e', he', p', hp', ht'⟩
        · exact Or.inl h'
        · exact Or.inr ⟨e', List.mem_cons_of_mem _ he', p', hp', ht'⟩

theorem advanceEntries_events_mem (status : Nat → CreationStatus)
    (e : String × CreationAttempt) (r : Except Error Producer)
    (hs : status e.2.attemptId = CreationStatus.done r)
    (l : List (String × CreationAttempt)) :
    ∀ ps, e ∈ l → ∀ ev ∈ runChain r e.2.waiters,
      ev ∈ (advanceEntries status ps l).2.2 := by
  induction l with
  | nil => intro ps he; cases he
  | cons e' rest ih =>
    intro ps he ev hev
    rcases List.mem_cons.mp he with h | h
    · subst h
      cases r with
      | ok p =>
        simp only [advanceEntries, hs]
        exact List.mem_append_left _ hev
      | error err =>
        simp only [advanceEntries, hs]
        exact List.mem_append_left _ hev
    · cases hs' : status e'.2.attemptId with
      | notReady =>
        simp only [advanceEntries, hs']
        exact ih ps h ev hev
      | done r' =>
        cases r' with
        | ok p =>
          simp only [advanceEntries, hs']
          exact List.mem_append_right _ (ih _ h ev hev)
        | error err =>
          simp only [advanceEntries, hs']
          exact List.mem_append_right _ (ih ps h ev hev)

theorem advanceEntries_no_create (status : Nat → CreationStatus) (T : String)
    (l : List (String × CreationAttempt)) :
    ∀ ps, createCallsFor T (advanceEntries status ps l).2.2 = [] := by
  induction l with
  | nil => intro ps; rfl
  | cons e rest ih =>
    intro ps
    cases hs : status e.2.attemptId with
    | notReady => simp only [advanceEntries, hs]; exact ih ps
    | done r =>
      cases r <;>
        simp [advanceEntries, hs, createCallsFor_append,
          createCallsFor_runChain, ih]

theorem advancePending_eq (status : Nat → CreationStatus) (s : EngineState) :
    advancePending status s =
      ({ producers := (advanceEntries status s.producers s.newProducers).1
         newProducers := (advanceEntries status s.producers s.newProducers).2.1
         nextAttemptId := s.nextAttemptId },
       (advanceEntries status s.producers s.newProducers).2.2) := by
  obtain ⟨ps, nps, na⟩ := s
  cases nps with
  | nil => simp [advancePending, advanceEntries]
  | cons e rest => simp [advancePending]

theorem handleMessage_producers (s : EngineState) (i : ProducerMessage) :
    (handleMessage s i).1.producers = s.producers := by
  cases h1 : mapLookup s.producers i.topic with
  | some p => simp [handleMessage, h1]
  | none =>
    cases h2 : mapLookup s.newProducers i.topic with
    | some att => simp [handleMessage, h1, h2]
    | none => simp [handleMessage, h1, h2]

theorem handleMessage_newProducers_ne (s : EngineState) (i : ProducerMessage)
    (t : String) (h : i.topic ≠ t) :
    mapLookup (handleMessage s i).1.newProducers t =
      mapLookup s.newProducers t := by
  cases h1 : mapLookup s.producers i.topic with
  | some p => simp [handleMessage, h1]
  | none =>
    cases h2 : mapLookup s.newProducers i.topic with
    | some att =>
      simp only [handleMessage, h1, h2]
      exact mapLookup_insert_ne _ _ _ _ (fun hh => h hh.symm)
    | none =>
      simp only [handleMessage, h1, h2]
      exact mapLookup_insert_ne _ _ _ _ (fun hh => h hh.symm)

theorem handleMessage_no_create_ne (s : EngineState) (i : ProducerMessage)
    (T : String) (h : i.topic ≠ T) :
    createCallsFor T (handleMessage s i).2 = [] := by
  cases h1 : mapLookup s.producers i.topic with
  | some p => simp [handleMessage, h1, createCallsFor, createCallOf]
  | none =>
    cases h2 : mapLookup s.newProducers i.topic with
    | some att => simp [handleMessage, h1, h2, createCallsFor]
    | none =>
      simp [handleMessage, h1, h2, createCallsFor, createCallOf, h]

theorem handleMessage_next_le (s : EngineState) (i : ProducerMessage) :
    s.nextAttemptId ≤ (handleMessage s i).1.nextAttemptId := by
  cases h1 : mapLookup s.producers i.topic with
  | some p => simp [handleMessage, h1]
  | none =>
    cases h2 : mapLookup s.newProducers i.topic with
    | some att => simp [handleMessage, h1, h2]
    | none => simp [handleMessage, h1, h2]

theorem handleMessage_WF (s : EngineState) (i : ProducerMessage)
    (h : s.WF) : (handleMessage s i).1.WF := by
  cases h1 : mapLookup s.producers i.topic with
  | some p => simpa [handleMessage, h1] using h
  | none =>
    cases h2 : mapLookup s.newProducers i.topic with
    | some att =>
      simp only [handleMessage, h1, h2]
      refine ⟨nodupKeys_insert _ _ h.1, fun t ht => ?_⟩
      by_cases hti : t = i.topic
      · subst hti
        exact absurd h1 ht
      · show mapLookup (mapInsert s.newProducers i.topic _) t = none
        rw [mapLookup_insert_ne _ _ _ _ hti]
        exact h.2 t ht
    | none =>
      simp only [handleMessage, h1, h2]
      refine ⟨nodupKeys_insert _ _ h.1, fun t ht => ?_⟩
      by_cases hti : t = i.topic
      · subst hti
        exact absurd h1 ht
      · show mapLookup (mapInsert s.newProducers i.topic _) t = none
        rw [mapLookup_insert_ne _ _ _ _ hti]
        exact h.2 t ht

theorem drainQueue_producers (q : List ProducerMessage) :
    ∀ s, (drainQueue s q).1.producers = s.producers := by
  induction q with
  | nil => intro s; rfl
  | cons i rest ih =>
    intro s
    show (drainQueue (handleMessage s i).1 rest).1.producers = s.producers
    rw [ih, handleMessage_producers]

theorem drainQueue_WF (q : List ProducerMessage) :
    ∀ s, s.WF → (drainQueue s q).1.WF := by
  induction q with
  | nil => intro s h; exact h
  | cons i rest ih =>
    intro s h
    exact ih _ (handleMessage_WF s i h)

theorem drainQueue_chain (T : String) (q : List ProducerMessage) :
    ∀ s aid ws, mapLookup s.producers T = none →
    mapLookup s.newProducers T = some { attemptId := aid, waiters := ws } →
    createCallsFor T (drainQueue s q).2 = [] ∧
    mapLookup (drainQueue s q).1.newProducers T =
      some { attemptId := aid, waiters := ws ++ waitersOf T q } := by
  induction q with
  | nil =>
    intro s aid ws hp hn
    exact ⟨rfl, by simpa [waitersOf] using hn⟩
  | cons i rest ih =>
    intro s aid ws hp hn
    by_cases hit : i.topic = T
    · have h1 : mapLookup s.producers i.topic = none := by rw [hit]; exact hp
      have h2 : mapLookup s.newProducers i.topic =
          some { attemptId := aid, waiters := ws } := by rw [hit]; exact hn
      have hupd : (handleMessage s i).1.newProducers =
          mapInsert s.newProducers i.topic
            { attemptId := aid, waiters := ws ++ [(i.resolver, i.message)] } := by
        simp [handleMessage, h1, h2]
      have hev : (handleMessage s i).2 = [] := by
        simp [handleMessage, h1, h2]
      have hp1 : mapLookup (handleMessage s i).1.producers T = none := by
        rw [handleMessage_producers]; exact hp
      have hn1 : mapLookup (handleMessage s i).1.newProducers T =
          some { attemptId := aid
                 waiters := ws ++ [(i.resolver, i.message)] } := by
        rw [hupd, ← hit]
        exact mapLookup_insert_self _ _ _
      obtain ⟨hc, hl⟩ :=
        ih (handleMessage s i).1 aid (ws ++ [(i.resolver, i.message)]) hp1 hn1
      constructor
      · show createCallsFor T
          ((handleMessage s i).2 ++
            (drainQueue (handleMessage s i).1 rest).2) = []
        rw [createCallsFor_append, hc, hev]
        rfl
      · show mapLookup
          (drainQueue (handleMessage s i).1 rest).1.newProducers T = _
        rw [hl]
        simp [waitersOf, hit, List.append_assoc]
    · have hp1 : mapLookup (handleMessage s i).1.producers T = none := by
        rw [handleMessage_producers]; exact hp
      have hn1 : mapLookup (handleMessage s i).1.newProducers T =
          some { attemptId := aid, waiters := ws } := by
        rw [handleMessage_newProducers_ne s i T hit]; exact hn
      obtain ⟨hc, hl⟩ := ih (handleMessage s i).1 aid ws hp1 hn1
      constructor
      · show createCallsFor T
          ((handleMessage s i).2 ++
            (drainQueue (handleMessage s i).1 rest).2) = []
        rw [createCallsFor_append, hc, handleMessage_no_create_ne s i T hit]
        rfl
      · show mapLookup
          (drainQueue (handleMessage s i).1 rest).1.newProducers T = _
        rw [hl]
        simp [waitersOf, hit]

theorem drainQueue_fresh (T : String) (q : List ProducerMessage) :
    ∀ s, mapLookup s.producers T = none →
    mapLookup s.newProducers T = none →
    (waitersOf T q = [] →
      createCallsFor T (drainQueue s q).2 = [] ∧
      mapLookup (drainQueue s q).1.newProducers T = none) ∧
    (waitersOf T q ≠ [] →
      ∃ aid, s.nextAttemptId ≤ aid ∧
        createCallsFor T (drainQueue s q).2 = [aid] ∧
        mapLookup (drainQueue s q).1.newProducers T =
          some { attemptId := aid, waiters := waitersOf T q }) := by
  induction q with
  | nil =>
    intro s hp hn
    exact ⟨fun _ => ⟨rfl, hn⟩, fun h => absurd rfl h⟩
  | cons i rest ih =>
    intro s hp hn
    by_cases hit : i.topic = T
    · have h1 : mapLookup s.producers i.topic = none := by rw [hit]; exact hp
      have h2 : mapLookup s.newProducers i.topic = none := by
        rw [hit]; exact hn
      have hupd : (handleMessage s i).1.newProducers =
          mapInsert s.newProducers i.topic
            { attemptId := s.nextAttemptId
              waiters := [(i.resolver, i.message)] } := by
        simp [handleMessage, h1, h2]
      have hev : (handleMessage s i).2 =
          [Event.createProducerCall i.topic s.nextAttemptId] := by
        simp [handleMessage, h1, h2]
      have hp1 : mapLookup (handleMessage s i).1.producers T = none := by
        rw [handleMessage_producers]; exact hp
      have hn1 : mapLookup (handleMessage s i).1.newProducers T =
          some { attemptId := s.nextAttemptId
                 waiters := [(i.resolver, i.message)] } := by
        rw [hupd, ← hit]
        exact mapLookup_insert_self _ _ _
      obtain ⟨hc, hl⟩ := drainQueue_chain T rest (handleMessage s i).1
        s.nextAttemptId [(i.resolver, i.message)] hp1 hn1
      constructor
      · intro hw
        exact absurd hw (by simp [waitersOf, hit])
      · intro _
        refine ⟨s.nextAttemptId, le_refl _, ?_, ?_⟩
        · show createCallsFor T
            ((handleMessage s i).2 ++
              (drainQueue (handleMessage s i).1 rest).2) = [s.nextAttemptId]
          rw [createCallsFor_append, hc, hev]
          simp [createCallsFor, createCallOf, hit]
        · show mapLookup
            (drainQueue (handleMessage s i).1 rest).1.newProducers T = _
          rw [hl]
          simp [waitersOf, hit]
    · have hp1 : mapLookup (handleMessage s i).1.producers T = none := by
        rw [handleMessage_producers]; exact hp
      have hn1 : mapLookup (handleMessage s i).1.newProducers T = none := by
        rw [handleMessage_newProducers_ne s i T hit]; exact hn
      obtain ⟨hA, hB⟩ := ih (handleMessage s i).1 hp1 hn1
      have hwo : waitersOf T (i :: rest) = waitersOf T rest := by
        simp [waitersOf, hit]
      constructor
      · intro hw
        rw [hwo] at hw
        obtain ⟨hc, hl⟩ := hA hw
        constructor
        · show createCallsFor T
            ((handleMessage s i).2 ++
              (drainQueue (handleMessage s i).1 rest).2) = []
          rw [createCallsFor_append, hc, handleMessage_no_create_ne s i T hit]
          rfl
        · exact hl
      · intro hw
        rw [hwo] at hw
        obtain ⟨aid, hle, hc, hl⟩ := hB hw
        refine ⟨aid, le_trans (handleMessage_next_le s i) hle, ?_, ?_⟩
        · show createCallsFor T
            ((handleMessage s i).2 ++
              (drainQueue (handleMessage s i).1 rest).2) = [aid]
          rw [createCallsFor_append, hc, handleMessage_no_create_ne s i T hit]
          rfl
        · show mapLookup
            (drainQueue (handleMessage s i).1 rest).1.newProducers T = _
          rw [hl, hwo]

/-! Claim theorems -/

/-- C4: the sequence generator's `get()`, called N times in order on one
session, yields the values `0, 1, ..., N-1`: N pairwise-distinct, strictly
increasing values starting at 0; and `Producer::send_message` draws its
sequence id by exactly this fetch-and-increment (the issued send RPC carries
`message_id.get()` and the session advances to the incremented state), so the
sequence ids of any run of sends on one session are pairwise distinct. -/
theorem c4_sequence_ids :
    (∀ N : Nat,
      (SerialId.getN SerialId.new N).1 = List.range N ∧
      (SerialId.getN SerialId.new N).1.Nodup ∧
      List.Pairwise (· < ·) (SerialId.getN SerialId.new N).1 ∧
      (SerialId.getN SerialId.new N).1.length = N) ∧
    (∀ N : Nat,
      (SerialId.getN SerialId.new (N + 1)).1.head? = some 0) ∧
    (∀ (p : Producer) (m : Message) (nm : Option Int),
      (p.send_message m nm).1 =
        RpcCall.sendRpc p.id p.name (p.message_id.get).1 nm m ∧
      (p.send_message m nm).2.2.message_id = (p.message_id.get).2) ∧
    (∀ (p : Producer) (msgs : List Message),
      p.sendSeqIds msgs = List.range' p.message_id.counter msgs.length ∧
      (p.sendSeqIds msgs).Nodup) := by
  refine ⟨fun N => ?_, fun N => ?_, fun p m nm => ⟨rfl, rfl⟩, fun p msgs => ?_⟩
  · have h : SerialId.new = (⟨0⟩ : SerialId) := rfl
    rw [h, serialId_getN_eq]
    refine ⟨by simp [List.range_eq_range'], ?_, ?_, by simp⟩
    · exact List.nodup_range' _ _
    · rw [← List.range_eq_range']
      exact List.pairwise_lt_range N
  · have h : SerialId.new = (⟨0⟩ : SerialId) := rfl
    rw [h, serialId_getN_eq]
    simp [List.range'_succ]
  · refine ⟨producer_sendSeqIds_eq msgs p, ?_⟩
    rw [producer_sendSeqIds_eq msgs p]
    exact List.nodup_range' _ _

/-- C5: a facade `send` whose serialization fails returns immediately with
that serialization error and pushes nothing onto the engine's inbound queue,
so the request never reaches the engine. -/
theorem c5_serialization_failure (queue : List ProducerMessage)
    (alive : Bool) (topic : String) (e : ProducerError) (r : Nat) :
    MultiTopicProducer.send queue alive topic (Except.error e) r =
      (queue, SendFuture.failedNow e) := rfl

/-- C6: when the facade cannot push onto the inbound queue it returns the
engine-unavailable error with the queue unchanged; when the result channel is
dropped without a value the future resolves to the same engine-unavailable
error; and every outcome of the result channel resolves the future to either
a receipt or a typed error (the adapter is total). -/
theorem c6_engine_unavailable (queue : List ProducerMessage) (topic : String)
    (m : Message) (r : Nat) :
    MultiTopicProducer.send queue false topic (Except.ok m) r =
      (queue, SendFuture.failedNow engineDroppedError) ∧
    resolveSendFuture none = Except.error engineDroppedError ∧
    (∀ c, (∃ d, resolveSendFuture c = Except.ok d) ∨
      (∃ e, resolveSendFuture c = Except.error e)) ∧
    (∀ d, resolveSendFuture (some (Except.ok d)) = Except.ok d) ∧
    (∀ e, resolveSendFuture (some (Except.error e)) = Except.error e) := by
  refine ⟨rfl, rfl, fun c => ?_, fun d => rfl, fun e => rfl⟩
  match c with
  | none => exact Or.inr ⟨engineDroppedError, rfl⟩
  | some (Except.ok d) => exact Or.inl ⟨d, rfl⟩
  | some (Except.error e) => exact Or.inr ⟨e, rfl⟩

/-- C7: session construction issues `lookup_topic` first and
`create_producer` only after the lookup succeeds; a failure of either step
yields that connection-level error and no `Producer` value; on success the
constructed session stores the broker-assigned `producer_name`, the requested
topic, the chosen producer id, and a fresh sequence generator. -/
theorem c7_session_construction (conn : Connection) (topic : String)
    (pid : Nat) (name : Option String) :
    ((Producer.from_connection conn topic pid name).1.head? =
      some (RpcCall.lookupTopic topic false)) ∧
    ((RpcCall.createProducer topic pid name ∈
        (Producer.from_connection conn topic pid name).1) →
      ∃ res, conn.lookup_topic topic false = Except.ok res) ∧
    (∀ e, conn.lookup_topic topic false = Except.error e →
      Producer.from_connection conn topic pid name =
        ([RpcCall.lookupTopic topic false], Except.error e)) ∧
    (∀ res e, conn.lookup_topic topic false = Except.ok res →
      conn.create_producer topic pid name = Except.error e →
      Producer.from_connection conn topic pid name =
        ([RpcCall.lookupTopic topic false,
          RpcCall.createProducer topic pid name], Except.error e)) ∧
    (∀ res success, conn.lookup_topic topic false = Except.ok res →
      conn.create_producer topic pid name = Except.ok success →
      ∃ p : Producer,
        Producer.from_connection conn topic pid name =
          ([RpcCall.lookupTopic topic false,
            RpcCall.createProducer topic pid name], Except.ok p) ∧
        p.name = success.producer_name ∧ p.topic = topic ∧ p.id = pid ∧
        p.message_id = SerialId.new) ∧
    (∀ p : Producer,
      (Producer.from_connection conn topic pid name).2 = Except.ok p →
      ∃ success, conn.create_producer topic pid name = Except.ok success ∧
        p.name = success.producer_name ∧ p.topic = topic ∧ p.id = pid) := by
  refine ⟨?_, ?_, ?_, ?_, ?_, ?_⟩
  · cases hl : conn.lookup_topic topic false with
    | error e0 => simp [Producer.from_connection, hl]
    | ok res0 =>
      cases hc : conn.create_producer topic pid name with
      | error e0 => simp [Producer.from_connection, hl, hc]
      | ok suc => simp [Producer.from_connection, hl, hc]
  · cases hl : conn.lookup_topic topic false with
    | error e0 =>
      intro hmem
      simp [Producer.from_connection, hl] at hmem
    | ok res0 => exact fun _ => ⟨res0, rfl⟩
  · intro e he
    simp [Producer.from_connection, he]
  · intro res e h1 h2
    simp [Producer.from_connection, h1, h2]
  · intro res success h1 h2
    refine ⟨{ connection := conn, id := pid, name := success.producer_name,
              topic := topic, message_id := SerialId.new }, ?_, rfl, rfl, rfl,
            rfl⟩
    simp [Producer.from_connection, h1, h2]
  · intro p hp
    cases hl : conn.lookup_topic topic false with
    | error e0 => simp [Producer.from_connection, hl] at hp
    | ok res0 =>
      cases hc : conn.create_producer topic pid name with
      | error e0 => simp [Producer.from_connection, hl, hc] at hp
      | ok suc =>
        simp [Producer.from_connection, hl, hc] at hp
        exact ⟨suc, rfl, by rw [← hp], by rw [← hp], by rw [← hp]⟩

/-- Witness for C7: on a connection whose lookup and creation both succeed,
construction yields exactly the two RPCs in order and a session carrying the
broker-assigned name. -/
theorem c7_witness :
    ∃ p : Producer,
      Producer.from_connection testConnection "topic-a" 5 none =
        ([RpcCall.lookupTopic "topic-a" false,
          RpcCall.createProducer "topic-a" 5 none], Except.ok p) ∧
      p.name =
        ({ producer_name := "assigned-name" } : ProducerSuccess).producer_name ∧
      p.topic = "topic-a" ∧ p.id = 5 ∧ p.message_id = SerialId.new :=
  (c7_session_construction testConnection "topic-a" 5 none).2.2.2.2.1
    { broker_url := "pulsar-broker" } { producer_name := "assigned-name" }
    rfl rfl

/-- C8: the destructor issues exactly one `close_producer` RPC carrying the
session's producer id; its outcome is discarded, so the destructor's result
and emitted calls are identical whatever the RPC outcome; and the
notification fires exactly when the last owner is released. -/
theorem c8_drop_notification (p : Producer)
    (r1 r2 : Except ConnectionError Unit) :
    (p.dropRun r1).1 = [RpcCall.closeProducer p.id] ∧
    (p.dropRun r1).1.length = 1 ∧
    p.dropRun r1 = p.dropRun r2 ∧
    releaseOwner 1 p r1 = [RpcCall.closeProducer p.id] ∧
    (∀ n : Nat, releaseOwner (n + 2) p r1 = []) := by
  refine ⟨rfl, rfl, rfl, rfl, fun n => ?_⟩
  have h : n + 2 ≠ 1 := by omega
  simp [releaseOwner, Producer.dropRun, h]

/-- C9: one poll of the engine completes (returns `Async::Ready`) exactly
when the inbound queue reported closed-and-empty, and the completion outcome
does not depend on the resolution oracle at all: creation failures (or any
per-topic outcome) never terminate the engine and the engine yields no
error. -/
theorem c9_engine_termination (status : Nat → CreationStatus)
    (s : EngineState) (queue : List ProducerMessage) (closed : Bool) :
    ((ProducerEngine.poll status s queue closed).2.2 = PollResult.ready ↔
      closed = true) ∧
    (∀ status' : Nat → CreationStatus,
      (ProducerEngine.poll status s queue closed).2.2 =
        (ProducerEngine.poll status' s queue closed).2.2) := by
  constructor
  · cases closed <;> simp [ProducerEngine.poll]
  · intro status'
    cases closed <;> simp [ProducerEngine.poll]

/-- C1: for a topic absent from the producers map, a poll that drains any
number of send requests for that topic before its creation resolves issues
exactly one `create_producer` attempt for the topic, and every drained
request is chained as a waiter of that same single pending attempt. -/
theorem c1_single_creation (status : Nat → CreationStatus) (s : EngineState)
    (queue : List ProducerMessage) (closed : Bool) (T : String)
    (htc : TopicConsistent status s)
    (hp : mapLookup s.producers T = none)
    (hn : mapLookup s.newProducers T = none)
    (hmsg : waitersOf T queue ≠ []) :
    ∃ aid,
      createCallsFor T (ProducerEngine.poll status s queue closed).2.1 =
        [aid] ∧
      mapLookup (ProducerEngine.poll status s queue closed).1.newProducers T =
        some { attemptId := aid, waiters := waitersOf T queue } := by
  have hadv := advancePending_eq status s
  have hcond : ∀ e ∈ s.newProducers, ∀ p : Producer,
      status e.2.attemptId = CreationStatus.done (Except.ok p) →
      p.topic ≠ T := by
    intro e he p hsp ht
    have h1 : p.topic = e.1 := htc e he p hsp
    have h2 : e.1 ≠ T := (mapLookup_none_iff _ _).mp hn e he
    exact h2 (h1 ▸ ht)
  have hp1 : mapLookup (advancePending status s).1.producers T = none := by
    rw [hadv]
    exact advanceEntries_producers_none status T s.newProducers s.producers
      hp hcond
  have hn1 : mapLookup (advancePending status s).1.newProducers T = none := by
    rw [hadv]
    show mapLookup
      (advanceEntries status s.producers s.newProducers).2.1 T = none
    rw [advanceEntries_newProducers]
    exact mapLookup_filter_none _ hn
  have hnocreate : createCallsFor T (advancePending status s).2 = [] := by
    rw [hadv]
    exact advanceEntries_no_create status T s.newProducers s.producers
  obtain ⟨hA, hB⟩ := drainQueue_fresh T queue (advancePending status s).1
    hp1 hn1
  obtain ⟨aid, hle, hc, hl⟩ := hB hmsg
  refine ⟨aid, ?_, ?_⟩
  · show createCallsFor T ((advancePending status s).2 ++
      (drainQueue (advancePending status s).1 queue).2) = [aid]
    rw [createCallsFor_append, hc, hnocreate]
    rfl
  · show mapLookup
      (drainQueue (advancePending status s).1 queue).1.newProducers T = _
    exact hl

/-- Witness for C1: from the initial engine state, draining two requests for
`"topic-a"` in one poll issues a single creation attempt holding both callers
as waiters. -/
theorem c1_witness :
    ∃ aid,
      createCallsFor "topic-a"
        (ProducerEngine.poll allPendingStatus EngineState.initial
          [testItem0, testItem1] false).2.1 = [aid] ∧
      mapLookup (ProducerEngine.poll allPendingStatus EngineState.initial
          [testItem0, testItem1] false).1.newProducers "topic-a" =
        some { attemptId := aid
               waiters := waitersOf "topic-a" [testItem0, testItem1] } :=
  c1_single_creation allPendingStatus EngineState.initial
    [testItem0, testItem1] false "topic-a"
    (fun e he => absurd he (List.not_mem_nil e))
    rfl rfl (by decide)

/-- C2: when the creation attempt for topic `T` fails, every chained caller
receives the very same failure (`Custom` of the error's rendering) on its
result channel; the pending entry for `T` is dropped and nothing is cached,
so with no further `T` message the topic is simply absent, and the next
drained message for `T` starts a brand-new creation attempt, observable as a
second `create_producer` call with a different attempt identity. -/
theorem c2_creation_failure (status : Nat → CreationStatus) (s : EngineState)
    (queue : List ProducerMessage) (closed : Bool) (T : String) (aid : Nat)
    (ws : List (Nat × Message)) (e : Error)
    (hwf : s.WF) (htc : TopicConsistent status s) (hb : AttemptIdsBounded s)
    (hn : mapLookup s.newProducers T =
      some { attemptId := aid, waiters := ws })
    (hs : status aid = CreationStatus.done (Except.error e)) :
    (∀ w ∈ ws, Event.resolveCaller w.1
        (Except.error (ProducerError.Custom e.description)) ∈
        (ProducerEngine.poll status s queue closed).2.1) ∧
    (waitersOf T queue = [] →
      createCallsFor T (ProducerEngine.poll status s queue closed).2.1 =
        [] ∧
      mapLookup
        (ProducerEngine.poll status s queue closed).1.newProducers T =
        none) ∧
    (waitersOf T queue ≠ [] →
      ∃ aid2, aid2 ≠ aid ∧
        createCallsFor T (ProducerEngine.poll status s queue closed).2.1 =
          [aid2] ∧
        mapLookup
          (ProducerEngine.poll status s queue closed).1.newProducers T =
          some { attemptId := aid2, waiters := waitersOf T queue }) := by
  have hadv := advancePending_eq status s
  have hmem : (T, ({ attemptId := aid, waiters := ws } : CreationAttempt)) ∈
      s.newProducers := mapLookup_some_mem hn
  have hi : ∀ w ∈ ws, Event.resolveCaller w.1
      (Except.error (ProducerError.Custom e.description)) ∈
      (ProducerEngine.poll status s queue closed).2.1 := by
    intro w hw
    show _ ∈ (advancePending status s).2 ++
      (drainQueue (advancePending status s).1 queue).2
    refine List.mem_append_left _ ?_
    rw [hadv]
    show _ ∈ (advanceEntries status s.producers s.newProducers).2.2
    exact advanceEntries_events_mem status
      (T, { attemptId := aid, waiters := ws }) (Except.error e) hs
      s.newProducers s.producers hmem _ (List.mem_map_of_mem _ hw)
  have hpT : mapLookup s.producers T = none := by
    by_contra h
    rw [hwf.2 T h] at hn
    cases hn
  have hcond : ∀ e' ∈ s.newProducers, ∀ p : Producer,
      status e'.2.attemptId = CreationStatus.done (Except.ok p) →
      p.topic ≠ T := by
    rintro ⟨k, att⟩ he' p hsp ht
    have h1 : p.topic = k := htc ⟨k, att⟩ he' p hsp
    have hkey : k = T := by rw [← h1]; exact ht
    subst hkey
    have hlook : mapLookup s.newProducers k = some att :=
      mapLookup_eq_of_mem_nodup hwf.1 he'
    rw [hn] at hlook
    cases hlook
    rw [hs] at hsp
    cases hsp
  have hp1 : mapLookup (advancePending status s).1.producers T = none := by
    rw [hadv]
    exact advanceEntries_producers_none status T s.newProducers s.producers
      hpT hcond
  have hfalse : isNotReady status
      (T, ({ attemptId := aid, waiters := ws } : CreationAttempt)) = false := by
    simp [isNotReady, hs]
  have hn1 : mapLookup (advancePending status s).1.newProducers T = none := by
    rw [hadv]
    show mapLookup
      (advanceEntries status s.producers s.newProducers).2.1 T = none
    rw [advanceEntries_newProducers]
    exact mapLookup_filter_of_mem_false hwf.1 hmem hfalse
  have hnocreate : createCallsFor T (advancePending status s).2 = [] := by
    rw [hadv]
    exact advanceEntries_no_create status T s.newProducers s.producers
  obtain ⟨hA, hB⟩ := drainQueue_fresh T queue (advancePending status s).1
    hp1 hn1
  refine ⟨hi, ?_, ?_⟩
  · intro hw
    obtain ⟨hc, hl⟩ := hA hw
    constructor
    · show createCallsFor T ((advancePending status s).2 ++
        (drainQueue (advancePending status s).1 queue).2) = []
      rw [createCallsFor_append, hc, hnocreate]
      rfl
    · exact hl
  · intro hw
    obtain ⟨aid2, hle, hc, hl⟩ := hB hw
    have hnext : (advancePending status s).1.nextAttemptId =
        s.nextAttemptId := by rw [hadv]
    have hlt : aid < s.nextAttemptId :=
      hb (T, { attemptId := aid, waiters := ws }) hmem
    rw [hnext] at hle
    refine ⟨aid2, by omega, ?_, hl⟩
    show createCallsFor T ((advancePending status s).2 ++
      (drainQueue (advancePending status s).1 queue).2) = [aid2]
    rw [createCallsFor_append, hc, hnocreate]
    rfl

/-- Witness for C2: a failed attempt for `"topic-a"` with two chained callers
and one further inbound message for the same topic yields a fresh second
creation attempt with a new identity. -/
theorem c2_witness :
    ∃ aid2, aid2 ≠ 0 ∧
      createCallsFor "topic-a"
        (ProducerEngine.poll allFailedStatus failedAttemptState [testItem0]
          false).2.1 = [aid2] ∧
      mapLookup (ProducerEngine.poll allFailedStatus failedAttemptState
          [testItem0] false).1.newProducers "topic-a" =
        some { attemptId := aid2
               waiters := waitersOf "topic-a" [testItem0] } :=
  (c2_creation_failure allFailedStatus failedAttemptState [testItem0] false
      "topic-a" 0 [(7, Message.default), (8, Message.default)]
      { description := "creation failed" }
      ⟨by simp [failedAttemptState], fun _ ht => absurd rfl ht⟩
      (fun e he p hsp => by simp [allFailedStatus] at hsp)
      (by intro e he
          simp only [failedAttemptState, List.mem_singleton] at he
          subst he
          decide)
      rfl rfl).2.2 (by decide)

/-- C3: the engine never holds a topic in both maps at once: every poll step
preserves the invariant that each topic is absent, pending in
`new_producers` only, or ready in `producers` only (together with the
key-uniqueness of the pending map). -/
theorem c3_maps_disjoint (status : Nat → CreationStatus) (s : EngineState)
    (queue : List ProducerMessage) (closed : Bool)
    (hwf : s.WF) (htc : TopicConsistent status s) :
    (ProducerEngine.poll status s queue closed).1.WF := by
  have hadv := advancePending_eq status s
  have hs1 : (advancePending status s).1.WF := by
    rw [hadv]
    refine ⟨?_, ?_⟩
    · show (((advanceEntries status s.producers s.newProducers).2.1).map
        Prod.fst).Nodup
      rw [advanceEntries_newProducers]
      exact nodupKeys_filter _ hwf.1
    · intro t ht
      have ht' : mapLookup
          (advanceEntries status s.producers s.newProducers).1 t ≠ none := ht
      show mapLookup
        (advanceEntries status s.producers s.newProducers).2.1 t = none
      rw [advanceEntries_newProducers]
      rcases advanceEntries_producers_lookup status t s.newProducers
          s.producers ht' with h' | ⟨⟨k, att⟩, he, p, hp, hpt⟩
      · exact mapLookup_filter_none _ (hwf.2 t h')
      · have hkey : k = t := by
          have h1 : p.topic = k := htc ⟨k, att⟩ he p hp
          rw [← h1]; exact hpt
        subst hkey
        have hfalse : isNotReady status (k, att) = false := by
          simp [isNotReady, hp]
        exact mapLookup_filter_of_mem_false hwf.1 he hfalse
  exact drainQueue_WF queue _ hs1

/-- Witness for C3: the disjointness invariant holds after a poll from the
initial state that registers a pending creation for `"topic-a"`. -/
theorem c3_witness :
    (ProducerEngine.poll allPendingStatus EngineState.initial [testItem0]
      false).1.WF :=
  c3_maps_disjoint allPendingStatus EngineState.initial [testItem0] false
    ⟨List.nodup_nil, fun _ ht => absurd rfl ht⟩
    (fun e he => absurd he (List.not_mem_nil e))

/-- C10: `check_connection` issues `lookup_topic` on the fixed literal topic
`"test"` with `authoritative = false`, and leaves the session completely
unchanged — in particular the sequence counter is untouched, so a send after
`check_connection` behaves exactly like a send without it. -/
theorem c10_check_connection_frame (p : Producer) (m : Message)
    (nm : Option Int) :
    (p.check_connection).1 = RpcCall.lookupTopic "test" false ∧
    (p.check_connection).2.2 = p ∧
    (p.check_connection).2.1 =
      (p.connection.lookup_topic "test" false).map (fun _ => ()) ∧
    (p.check_connection).2.2.message_id = p.message_id ∧
    (p.check_connection).2.2.send_message m nm = p.send_message m nm :=
  ⟨rfl, rfl, rfl, rfl, rfl⟩

end PulsarProducer
